import Mathlib

/-!
Verification of the audio-to-emotion inference pipeline of the Emotion-Backend
repository. The definitions below are a shallow embedding of the Python code in
src/services/audio_service.py, src/services/prediction_service.py and
src/utils/constants.py. Scalars are modelled as rationals; the NaN value that
numpy float division can produce is modelled by the none case of an Option.
Stateful behaviour (temporary files on disk, the Mongo collection, the wall
clock) is modelled by explicit state passing.
-/

set_option maxRecDepth 8192

namespace EmotionBackend

/-- Audio processing constant from src/utils/constants.py line 5. -/
def SAMPLE_RATE : Nat := 22050

/-- Fixed emotion label order from src/utils/constants.py line 6. -/
def EMOTION_LABELS : List String := ["angry", "disgust", "fear", "happy", "neutral", "sad"]

/-- Division as performed by numpy on floats, restricted to the shape in which it
occurs in this code base: when the denominator is zero the numerator is zero as
well (both are differences against the same extremum), and numpy produces NaN
for that 0/0; NaN is modelled as none. -/
def npDiv (a b : ℚ) : Option ℚ := if b = 0 then none else some (a / b)

/-- Minimum of all entries of an array, as np.ndarray.min computes it; the value
on an empty list is irrelevant to the source (numpy errors there) and is fixed
to 0. -/
def listMin : List ℚ → ℚ
  | [] => 0
  | x :: xs => xs.foldl min x

/-- Maximum of all entries of an array, as np.ndarray.max computes it. -/
def listMax : List ℚ → ℚ
  | [] => 0
  | x :: xs => xs.foldl max x

/-- All entries of a 2-dimensional array in row-major order. -/
def imageFlatten (img : List (List ℚ)) : List ℚ := img.flatten

/-- Number of short-time frames librosa produces for a signal of n samples with
its default centered framing, n_fft 2048 and hop_length 512. -/
def numFrames (n : Nat) : Nat := 1 + n / 512

/-- Samples contributing to frame t (hop_length 512, frame length 2048). -/
def frameSamples (signal : List ℚ) (t : Nat) : List ℚ :=
  (signal.drop (512 * t)).take 2048

/-- Signal power in frame t: the sum of squares of the samples in the frame. -/
def framePower (signal : List ℚ) (t : Nat) : ℚ :=
  ((frameSamples signal t).map (fun x => x * x)).sum

/-- Models the composite librosa.feature.melspectrogram followed by
librosa.power_to_db on line 112-113 of src/services/audio_service.py, at the
granularity the verified claims use: the output is a matrix of 128 mel rows by
numFrames columns (the framing documented for librosa), and the entry of a column is a
function of the signal power in that frame. The spectral arithmetic itself (FFT,
mel filter bank, the dB map) is external library code and is represented by the
frame power; on the all-zero (silent) signals evaluated by the claims this
agrees with the real computation, which maps an all-zero power image to a
constant dB image. The mel filter weighting across the 128 rows is likewise
abstracted away, so all rows of one column carry the same value; no verified
claim depends on values of a non-silent spectrum. -/
def mel_spec_db (signal : List ℚ) : List (List ℚ) :=
  List.replicate 128 ((List.range (numFrames signal.length)).map (fun t => framePower signal t))

/-- One output sample of the resize on line 117: the source pixel whose index is
the target index rescaled to the source grid. Out-of-range fetches fall back to
0, matching the constant padding mode of the source call. -/
def nearestPixel (img : List (List ℚ)) (i j h w : Nat) : ℚ :=
  (img.getD (i * img.length / h) []).getD (j * (img.headD []).length / w) 0

/-- Models skimage.transform.resize with output shape h by w (line 117): the
output grid has exactly the target dimensions, each output pixel an interpolated
source value, here the nearest source pixel. The anti-aliased spline
interpolation is external numeric code; the facts the claims use, namely the
fixed output shape and that a resize of an all-zero image is all-zero, hold for
both. -/
def resizeTo (h w : Nat) (img : List (List ℚ)) : List (List ℚ) :=
  (List.range h).map (fun i => (List.range w).map (fun j => nearestPixel img i j h w))

/-- The mel_spec_resized intermediate of generate_spectrogram (line 117) with
the default target_size of (150, 120). -/
def mel_spec_resized (signal : List ℚ) : List (List ℚ) :=
  resizeTo 150 120 (mel_spec_db signal)

/-- The min-max normalization on line 120, transcribed exactly: every entry x
becomes (x - m.min()) / (m.max() - m.min()), with no guard on the denominator.
A constant image makes the denominator zero and every entry the NaN of 0/0. -/
def minmaxNormalize (img : List (List ℚ)) : List (List (Option ℚ)) :=
  img.map (fun row => row.map (fun x =>
    npDiv (x - listMin (imageFlatten img)) (listMax (imageFlatten img) - listMin (imageFlatten img))))

/-- The trailing channel dimension added on line 123 via np.newaxis: every
scalar entry becomes a singleton along a new axis. -/
def addChannel (img : List (List (Option ℚ))) : List (List (List (Option ℚ))) :=
  img.map (fun row => row.map (fun v => [v]))

/-- generate_spectrogram of src/services/audio_service.py lines 109-125:
mel spectrogram in dB, resize to 150 by 120, min-max normalize, add a channel
dimension. -/
def generate_spectrogram (signal : List ℚ) : List (List (List (Option ℚ))) :=
  addChannel (minmaxNormalize (mel_spec_resized signal))

/-- All scalar entries of a generated spectrogram, in row-major order. -/
def spectroPixels (signal : List ℚ) : List (Option ℚ) :=
  (generate_spectrogram signal).flatten.flatten

/-- The WebM/EBML magic signature checked on line 181. -/
def webmMagic : List Nat := [0x1A, 0x45, 0xDF, 0xA3]

/-- Format detection of lines 175-183: read the first 16 bytes of the file and
test whether they start with the 4 magic bytes. The file extension plays no
part. -/
def is_webm_file (content : List Nat) : Bool :=
  webmMagic.isPrefixOf (content.take 16)

/-- Python exception kinds raised by the embedded functions. -/
inductive PyError
  | valueError
  | runtimeError
  | timeoutError
  | fileNotFoundError
  | attributeError
  | cnnModelNotLoaded
  | svmModelNotLoaded
  | uncaughtLoadError
deriving DecidableEq

/-- Which decoding path load_audio takes for a file. -/
inductive AudioAction
  | transcode
  | directDecode
deriving DecidableEq

/-- Outcome of the external ffmpeg invocation on line 202. -/
inductive FfmpegOutcome
  | ok
  | exitNonzero
  | timeout
  | binMissing
deriving DecidableEq

/-- Result of a modelled load_audio call: the temporary files existing on disk
afterwards, the decoding path taken, and the Python-level outcome. -/
structure LoadAudioResult where
  tempFiles : List String
  route : AudioAction
  result : Except PyError Unit

/-- convert_webm_to_wav of lines 185-215 as a transition on the set of existing
temporary files: mkstemp on line 187 creates the output WAV first; a nonzero
ffmpeg exit (line 205), a timeout (line 211) and a missing binary (line 213) all
raise without deleting it. -/
def convert_webm_to_wav (outcome : FfmpegOutcome) (output_path : String)
    (fs : List String) : List String × Except PyError String :=
  let fs1 := fs ++ [output_path]
  match outcome with
  | FfmpegOutcome.ok => (fs1, Except.ok output_path)
  | FfmpegOutcome.exitNonzero => (fs1, Except.error PyError.runtimeError)
  | FfmpegOutcome.timeout => (fs1, Except.error PyError.timeoutError)
  | FfmpegOutcome.binMissing => (fs1, Except.error PyError.fileNotFoundError)

/-- load_audio of lines 52-101 as a transition on the set of existing temporary
files. The routing decision of line 56 inspects only the file content; filename
appears only in error text. decodeOk is the outcome of the librosa.load call on
line 74 and removeOk is whether the os.remove on line 80 is permitted (the
PermissionError handler on lines 81-83 keeps the file and continues). The
except block of lines 86-101 wraps every failure into a ValueError and performs
no cleanup. -/
def load_audio_model (filename : String) (content : List Nat)
    (ffmpeg : FfmpegOutcome) (decodeOk removeOk : Bool) (wavPath : String)
    (fs : List String) : LoadAudioResult :=
  if is_webm_file content then
    match convert_webm_to_wav ffmpeg wavPath fs with
    | (fs1, Except.error _) =>
        { tempFiles := fs1, route := AudioAction.transcode,
          result := Except.error PyError.valueError }
    | (fs1, Except.ok converted) =>
        if decodeOk then
          if removeOk then
            { tempFiles := fs1.erase converted, route := AudioAction.transcode,
              result := Except.ok () }
          else
            { tempFiles := fs1, route := AudioAction.transcode,
              result := Except.ok () }
        else
          { tempFiles := fs1, route := AudioAction.transcode,
            result := Except.error PyError.valueError }
  else
    if decodeOk then
      { tempFiles := fs, route := AudioAction.directDecode, result := Except.ok () }
    else
      { tempFiles := fs, route := AudioAction.directDecode,
        result := Except.error PyError.valueError }

/-- Shape of the spectrogram handed to the embedding extractor. -/
abbrev Spectro := List (List (List (Option ℚ)))

/-- The loaded CNN feature extractor: rebuilt records whether it came from the
artifact (false) or from the fallback reconstruction of the quick_train
architecture (true, src/utils/constants.py lines 31-42); eval is its batched
forward computation. -/
structure CnnModel where
  rebuilt : Bool
  eval : List Spectro → List ℚ

/-- The loaded SVM classifier with its predict_proba computation; its output for
the single-row input built on line 26 of src/services/prediction_service.py. -/
structure SvmModel where
  predict_proba : List ℚ → List ℚ

/-- The process-wide model state created by src/utils/constants.py. -/
structure Models where
  extractor : Option CnnModel
  svm_model : Option SvmModel

/-- Outcome of the load_model call on line 24 of src/utils/constants.py:
ok, a ValueError or TypeError compatibility failure (the kinds caught on line
25), or an exception of any other kind. -/
inductive LoadOutcome
  | ok
  | compatError
  | otherError
deriving DecidableEq

/-- Startup initialization of the extractor, src/utils/constants.py lines 13-48:
with TensorFlow importable and the artifact file present, a clean load yields
the loaded model; a ValueError or TypeError during deserialization is caught and
a fresh model with the quick_train architecture is built instead (lines 27-42);
any other exception escapes the except clauses and aborts the module import.
A missing file or a failed import yields None. ldEval and rbEval are the
forward computations of the deserialized and of the rebuilt network. -/
def init_extractor (tfAvailable fileExists : Bool) (load : LoadOutcome)
    (ldEval rbEval : List Spectro → List ℚ) : Except PyError (Option CnnModel) :=
  if tfAvailable then
    if fileExists then
      match load with
      | LoadOutcome.ok => Except.ok (some { rebuilt := false, eval := ldEval })
      | LoadOutcome.compatError => Except.ok (some { rebuilt := true, eval := rbEval })
      | LoadOutcome.otherError => Except.error PyError.uncaughtLoadError
    else Except.ok none
  else Except.ok none

/-- get_embedding of src/services/prediction_service.py lines 11-18: raises when
the extractor is None (line 13), otherwise adds the batch dimension (line 16)
and runs the model. -/
def get_embedding (extractor : Option CnnModel) (spectrogram : Spectro) :
    Except PyError (List ℚ) :=
  match extractor with
  | none => Except.error PyError.cnnModelNotLoaded
  | some mdl => Except.ok (mdl.eval [spectrogram])

/-- The enumerate loop of lines 30-34: pair label i with the i-th classifier
probability when present, with 0 otherwise. -/
def emotion_probabilities_from (probs : List ℚ) : Nat → List String → List (String × ℚ)
  | _, [] => []
  | i, e :: es =>
      (e, if i < probs.length then probs.getD i 0 else 0)
        :: emotion_probabilities_from probs (i + 1) es

/-- The emotion_probabilities mapping built by predict_emotion (lines 29-34),
in insertion order, which is the fixed EMOTION_LABELS order. -/
def emotion_probabilities (probs : List ℚ) : List (String × ℚ) :=
  emotion_probabilities_from probs 0 EMOTION_LABELS

/-- predict_emotion of lines 20-36: raises when the SVM is None (line 22),
otherwise maps its probability row over the fixed labels. -/
def predict_emotion (svm : Option SvmModel) (embedding : List ℚ) :
    Except PyError (List (String × ℚ)) :=
  match svm with
  | none => Except.error PyError.svmModelNotLoaded
  | some mdl => Except.ok (emotion_probabilities (mdl.predict_proba embedding))

/-- One comparison step of the Python builtin max with a key: the running best is
replaced only when the new key is strictly greater, so the first of several
equal maxima is kept. -/
def maxStep (best y : String × ℚ) : String × ℚ :=
  if best.2 < y.2 then y else best

/-- The Python max over (label, probability) pairs keyed by the probability, as
used on line 173; raises on an empty sequence, modelled by none. -/
def pythonMax (l : List (String × ℚ)) : Option (String × ℚ) :=
  match l with
  | [] => none
  | x :: xs => some (xs.foldl maxStep x)

/-- Pipeline stages whose execution the orchestrator models record. -/
inductive Stage
  | featureExtraction
  | embedding
  | classification
deriving DecidableEq

/-- process_audio_for_prediction of lines 146-152, instrumented with the list of
stages that actually ran, in order: generate_spectrogram is called on line 149
unconditionally, before get_embedding performs its availability check. -/
def process_audio_for_prediction (m : Models) (signal : List ℚ) :
    List Stage × Except PyError (List (String × ℚ)) :=
  let spectrogram := generate_spectrogram signal
  match get_embedding m.extractor spectrogram with
  | Except.error e => ([Stage.featureExtraction], Except.error e)
  | Except.ok emb =>
      match predict_emotion m.svm_model emb with
      | Except.error e =>
          ([Stage.featureExtraction, Stage.embedding], Except.error e)
      | Except.ok dist =>
          ([Stage.featureExtraction, Stage.embedding, Stage.classification],
            Except.ok dist)

/-- Wall-clock durations spent inside the three numeric stages of one request. -/
structure StageDurations where
  featureExtraction : ℚ
  embedding : ℚ
  classification : ℚ

/-- The processing_time computed by process_audio_for_prediction_with_storage,
transcribing lines 163-170: time.time() is read into start_time on line 163,
then generate_spectrogram (line 166), get_embedding (line 167) and
predict_emotion (line 168) run, then processing_time is the elapsed clock on
line 170. The clock advances by the duration of each stage it passes. -/
def measured_processing_time (d : StageDurations) (clock0 : ℚ) : ℚ :=
  let start_time := clock0
  let clock1 := clock0 + d.featureExtraction
  let clock2 := clock1 + d.embedding
  let clock3 := clock2 + d.classification
  clock3 - start_time

/-- Attribute names of the Python datetime class, the name bound by the import
on line 4 of src/services/prediction_service.py (from datetime import
datetime). The class namespace holds constructors and accessors; the name
timezone is not among them, since timezone is a module-level name of the
datetime module, not an attribute of the class. -/
def datetimeClassAttrs : List String :=
  ["min", "max", "resolution", "today", "now", "utcnow", "fromtimestamp",
   "utcfromtimestamp", "fromordinal", "fromisoformat", "combine", "strptime"]

/-- Python attribute lookup on the datetime class: AttributeError when the name
is not in the class namespace. -/
def getattr_datetime_class (attr : String) : Except PyError String :=
  if attr ∈ datetimeClassAttrs then Except.ok attr else Except.error PyError.attributeError

/-- Evaluation of the created_at expression on line 63,
datetime.now(datetime.timezone.utc): the argument datetime.timezone.utc is
evaluated before the call, and its first step is the attribute lookup of
timezone on the datetime class, which raises AttributeError. -/
def eval_created_at : Except PyError String :=
  match getattr_datetime_class "timezone" with
  | Except.error e => Except.error e
  | Except.ok tz => Except.ok ("datetime.now(" ++ tz ++ ".utc)")

/-- A document of the predictions collection, fields from lines 52-63. -/
structure PredictionDoc where
  user_id : String
  filename : String
  emotion : String
  confidence : ℚ
  model_type : String
  processing_time : Option ℚ
  created_at : String
deriving DecidableEq

/-- save_prediction_to_mongo of lines 38-68 as a transition on the predictions
collection: the prediction_doc dictionary literal of lines 52-64 is evaluated
first, which evaluates created_at; only if that succeeds does insert_one append
the document (line 66) and return its position as the inserted id. -/
def save_prediction_to_mongo (db : List PredictionDoc) (user_id filename emotion : String)
    (confidence : ℚ) : Except PyError (List PredictionDoc × Nat) :=
  match eval_created_at with
  | Except.error e => Except.error e
  | Except.ok ts =>
      let doc : PredictionDoc :=
        { user_id := user_id, filename := filename, emotion := emotion,
          confidence := confidence, model_type := "hybrid",
          processing_time := none, created_at := ts }
      Except.ok (db ++ [doc], db.length)

/-- update_prediction_processing_time of lines 70-76: set the processing_time
field of the document with the given id. -/
def update_prediction_processing_time (db : List PredictionDoc) (pid : Nat)
    (t : ℚ) : List PredictionDoc :=
  (db.enum.map (fun p => if p.1 = pid then
    { p.2 with processing_time := some t } else p.2))

/-- process_audio_for_prediction_with_storage of lines 154-196: read the clock
(line 163), run generate_spectrogram, get_embedding and predict_emotion (lines
166-168), compute processing_time (line 170), select the primary emotion by
Python max (line 173), persist via save_prediction_to_mongo (line 178) and then
update the stored processing time (line 189). Returns the collection and, on
success, the inserted id, the confidence and the processing time. -/
def process_audio_for_prediction_with_storage (m : Models) (d : StageDurations)
    (signal : List ℚ) (user_id filename : String) (db : List PredictionDoc)
    (clock0 : ℚ) : List PredictionDoc × Except PyError (Nat × ℚ × ℚ) :=
  let spectrogram := generate_spectrogram signal
  match get_embedding m.extractor spectrogram with
  | Except.error e => (db, Except.error e)
  | Except.ok emb =>
      match predict_emotion m.svm_model emb with
      | Except.error e => (db, Except.error e)
      | Except.ok dist =>
          let processing_time := measured_processing_time d clock0
          match pythonMax dist with
          | none => (db, Except.error PyError.valueError)
          | some pe =>
              match save_prediction_to_mongo db user_id filename pe.1 pe.2 with
              | Except.error e => (db, Except.error e)
              | Except.ok (db1, pid) =>
                  (update_prediction_processing_time db1 pid processing_time,
                    Except.ok (pid, pe.2, processing_time))

/-! Helper lemmas about folds computing array minima and maxima. -/

theorem foldl_min_le_init (a : ℚ) (xs : List ℚ) : xs.foldl min a ≤ a := by
  induction xs generalizing a with
  | nil => exact le_refl a
  | cons y ys ih =>
      rw [List.foldl_cons]
      exact le_trans (ih (min a y)) (min_le_left a y)

theorem foldl_min_le_mem {x : ℚ} (a : ℚ) {xs : List ℚ} (hx : x ∈ xs) :
    xs.foldl min a ≤ x := by
  induction xs generalizing a with
  | nil => cases hx
  | cons y ys ih =>
      rw [List.foldl_cons]
      rcases List.mem_cons.mp hx with h | h
      · subst h
        exact le_trans (foldl_min_le_init _ _) (min_le_right a x)
      · exact ih _ h

theorem foldl_min_eq_or_mem (a : ℚ) (xs : List ℚ) :
    xs.foldl min a = a ∨ xs.foldl min a ∈ xs := by
  induction xs generalizing a with
  | nil => exact Or.inl rfl
  | cons y ys ih =>
      rw [List.foldl_cons]
      rcases ih (min a y) with h | h
      · rcases min_choice a y with hm | hm
        · exact Or.inl (h.trans hm)
        · exact Or.inr (List.mem_cons.mpr (Or.inl (h.trans hm)))
      · exact Or.inr (List.mem_cons_of_mem y h)

theorem init_le_foldl_max (a : ℚ) (xs : List ℚ) : a ≤ xs.foldl max a := by
  induction xs generalizing a with
  | nil => exact le_refl a
  | cons y ys ih =>
      rw [List.foldl_cons]
      exact le_trans (le_max_left a y) (ih (max a y))

theorem mem_le_foldl_max {x : ℚ} (a : ℚ) {xs : List ℚ} (hx : x ∈ xs) :
    x ≤ xs.foldl max a := by
  induction xs generalizing a with
  | nil => cases hx
  | cons y ys ih =>
      rw [List.foldl_cons]
      rcases List.mem_cons.mp hx with h | h
      · subst h
        exact le_trans (le_max_right a x) (init_le_foldl_max _ _)
      · exact ih _ h

theorem foldl_max_eq_or_mem (a : ℚ) (xs : List ℚ) :
    xs.foldl max a = a ∨ xs.foldl max a ∈ xs := by
  induction xs generalizing a with
  | nil => exact Or.inl rfl
  | cons y ys ih =>
      rw [List.foldl_cons]
      rcases ih (max a y) with h | h
      · rcases max_choice a y with hm | hm
        · exact Or.inl (h.trans hm)
        · exact Or.inr (List.mem_cons.mpr (Or.inl (h.trans hm)))
      · exact Or.inr (List.mem_cons_of_mem y h)

theorem listMin_le_mem {x : ℚ} {l : List ℚ} (hx : x ∈ l) : listMin l ≤ x := by
  cases l with
  | nil => cases hx
  | cons y ys =>
      rcases List.mem_cons.mp hx with h | h
      · subst h
        exact foldl_min_le_init _ _
      · exact foldl_min_le_mem _ h

theorem mem_le_listMax {x : ℚ} {l : List ℚ} (hx : x ∈ l) : x ≤ listMax l := by
  cases l with
  | nil => cases hx
  | cons y ys =>
      rcases List.mem_cons.mp hx with h | h
      · subst h
        exact init_le_foldl_max _ _
      · exact mem_le_foldl_max _ h

theorem listMin_mem {l : List ℚ} (h : l ≠ []) : listMin l ∈ l := by
  cases l with
  | nil => exact absurd rfl h
  | cons y ys =>
      show ys.foldl min y ∈ y :: ys
      rcases foldl_min_eq_or_mem y ys with h1 | h1
      · rw [h1]; exact List.mem_cons_self _ _
      · exact List.mem_cons_of_mem _ h1

theorem listMax_mem {l : List ℚ} (h : l ≠ []) : listMax l ∈ l := by
  cases l with
  | nil => exact absurd rfl h
  | cons y ys =>
      show ys.foldl max y ∈ y :: ys
      rcases foldl_max_eq_or_mem y ys with h1 | h1
      · rw [h1]; exact List.mem_cons_self _ _
      · exact List.mem_cons_of_mem _ h1

theorem listMin_of_all_zero {l : List ℚ} (h : ∀ x ∈ l, x = 0) : listMin l = 0 := by
  cases hl : l with
  | nil => rfl
  | cons y ys =>
      subst hl
      exact h _ (listMin_mem (List.cons_ne_nil y ys))

theorem listMax_of_all_zero {l : List ℚ} (h : ∀ x ∈ l, x = 0) : listMax l = 0 := by
  cases hl : l with
  | nil => rfl
  | cons y ys =>
      subst hl
      exact h _ (listMax_mem (List.cons_ne_nil y ys))

/-! Helper lemmas about flattening the spectrogram pipeline. -/

theorem flatten_map_singleton {α : Type} (l : List α) :
    (l.map (fun v => [v])).flatten = l := by
  induction l with
  | nil => rfl
  | cons x xs ih => simp [ih]

theorem spectroPixels_eq (signal : List ℚ) :
    spectroPixels signal
      = (imageFlatten (mel_spec_resized signal)).map (fun x =>
          npDiv (x - listMin (imageFlatten (mel_spec_resized signal)))
            (listMax (imageFlatten (mel_spec_resized signal))
              - listMin (imageFlatten (mel_spec_resized signal)))) := by
  unfold spectroPixels generate_spectrogram addChannel minmaxNormalize imageFlatten
  rw [← List.map_flatten, flatten_map_singleton, ← List.map_flatten]

/-- C1 (amended): for every waveform, if the resized log-mel image is
non-constant then every value of the generated spectrogram lies in [0,1] with
minimum 0 and maximum 1 each attained at least once; if the resized image is
constant, as it is for flat silence, then every value is the NaN of the
unguarded 0/0 division, not zero. -/
theorem generate_spectrogram_normalization (signal : List ℚ) :
    (listMin (imageFlatten (mel_spec_resized signal))
        ≠ listMax (imageFlatten (mel_spec_resized signal)) →
      (∀ v ∈ spectroPixels signal, ∃ q, v = some q ∧ 0 ≤ q ∧ q ≤ 1) ∧
      some 0 ∈ spectroPixels signal ∧ some 1 ∈ spectroPixels signal) ∧
    (listMin (imageFlatten (mel_spec_resized signal))
        = listMax (imageFlatten (mel_spec_resized signal)) →
      ∀ v ∈ spectroPixels signal, v = none) := by
  constructor
  · intro hne
    have hnonempty : imageFlatten (mel_spec_resized signal) ≠ [] := by
      intro h0
      rw [h0] at hne
      exact hne rfl
    have hminmem := listMin_mem hnonempty
    have hmaxmem := listMax_mem hnonempty
    have hlt : listMin (imageFlatten (mel_spec_resized signal))
        < listMax (imageFlatten (mel_spec_resized signal)) :=
      lt_of_le_of_ne (listMin_le_mem hmaxmem) hne
    have hposden : (0:ℚ) < listMax (imageFlatten (mel_spec_resized signal))
        - listMin (imageFlatten (mel_spec_resized signal)) := sub_pos.mpr hlt
    have hden : listMax (imageFlatten (mel_spec_resized signal))
        - listMin (imageFlatten (mel_spec_resized signal)) ≠ 0 := ne_of_gt hposden
    rw [spectroPixels_eq]
    refine ⟨?_, ?_, ?_⟩
    · intro v hv
      rcases List.mem_map.mp hv with ⟨x, hx, hxv⟩
      refine ⟨(x - listMin (imageFlatten (mel_spec_resized signal)))
          / (listMax (imageFlatten (mel_spec_resized signal))
            - listMin (imageFlatten (mel_spec_resized signal))), ?_, ?_, ?_⟩
      · rw [← hxv]
        simp [npDiv, hden]
      · exact div_nonneg (sub_nonneg.mpr (listMin_le_mem hx)) (le_of_lt hposden)
      · exact (div_le_one hposden).mpr (sub_le_sub_right (mem_le_listMax hx) _)
    · refine List.mem_map.mpr ⟨listMin (imageFlatten (mel_spec_resized signal)), hminmem, ?_⟩
      simp [npDiv, hden]
    · refine List.mem_map.mpr ⟨listMax (imageFlatten (mel_spec_resized signal)), hmaxmem, ?_⟩
      simp [npDiv, hden, div_self hden]
  · intro heq v hv
    rw [spectroPixels_eq] at hv
    rcases List.mem_map.mp hv with ⟨x, hx, hxv⟩
    rw [← hxv, heq]
    simp [npDiv]

/-! Evaluation of the pipeline on flat silence. -/

theorem sum_replicate_zero (n : Nat) : (List.replicate n (0:ℚ)).sum = 0 := by
  induction n with
  | zero => rfl
  | succ k ih => simp [List.replicate_succ, ih]

theorem framePower_silence (n t : Nat) :
    framePower (List.replicate n (0:ℚ)) t = 0 := by
  unfold framePower frameSamples
  rw [List.drop_replicate, List.take_replicate]
  simp [sum_replicate_zero]

theorem mel_spec_db_silence (n : Nat) :
    ∀ row ∈ mel_spec_db (List.replicate n (0:ℚ)), ∀ x ∈ row, x = 0 := by
  intro row hrow x hx
  unfold mel_spec_db at hrow
  have hr := List.eq_of_mem_replicate hrow
  rw [hr] at hx
  rcases List.mem_map.mp hx with ⟨t, _, hxt⟩
  rw [← hxt]
  exact framePower_silence n t

theorem getD_mem_or_eq {α : Type} (l : List α) (d : α) (i : Nat) :
    l.getD i d ∈ l ∨ l.getD i d = d := by
  by_cases h : i < l.length
  · left
    rw [List.getD_eq_getElem l d h]
    exact List.getElem_mem h
  · right
    exact List.getD_eq_default l d (Nat.le_of_not_lt h)

theorem nearestPixel_zero_of_all_zero (img : List (List ℚ))
    (h : ∀ row ∈ img, ∀ x ∈ row, x = 0) (i j hh ww : Nat) :
    nearestPixel img i j hh ww = 0 := by
  unfold nearestPixel
  rcases getD_mem_or_eq img [] (i * img.length / hh) with hr | hr
  · rcases getD_mem_or_eq (img.getD (i * img.length / hh) []) 0
        (j * (img.headD []).length / ww) with hx | hx
    · exact h _ hr _ hx
    · exact hx
  · rw [hr]
    simp

theorem resized_silence_zero (n : Nat) :
    ∀ x ∈ imageFlatten (mel_spec_resized (List.replicate n (0:ℚ))), x = 0 := by
  intro x hx
  unfold imageFlatten mel_spec_resized resizeTo at hx
  rcases List.mem_flatten.mp hx with ⟨row, hrow, hxr⟩
  rcases List.mem_map.mp hrow with ⟨i, _, hi⟩
  rw [← hi] at hxr
  rcases List.mem_map.mp hxr with ⟨j, _, hj⟩
  rw [← hj]
  exact nearestPixel_zero_of_all_zero _ (mel_spec_db_silence n) _ _ _ _

theorem row0_pixel_mem (signal : List ℚ) (j : Nat) (hj : j < 120) :
    nearestPixel (mel_spec_db signal) 0 j 150 120
      ∈ imageFlatten (mel_spec_resized signal) := by
  unfold imageFlatten mel_spec_resized resizeTo
  refine List.mem_flatten.mpr
    ⟨(List.range 120).map (fun k => nearestPixel (mel_spec_db signal) 0 k 150 120), ?_, ?_⟩
  · exact List.mem_map.mpr ⟨0, List.mem_range.mpr (by norm_num), rfl⟩
  · exact List.mem_map.mpr ⟨j, List.mem_range.mpr hj, rfl⟩

/-- C1 counterexample: on the constant (silent) 0.1-second waveform of 2205
zero samples, the spectrogram produced by generate_spectrogram contains NaN —
in fact the normalization divides 0 by 0 everywhere — and contains no zero
entry, refuting the claim that a constant waveform yields an all-zero,
NaN-free output. -/
theorem generate_spectrogram_silence_nan :
    none ∈ spectroPixels (List.replicate 2205 (0:ℚ)) ∧
    some 0 ∉ spectroPixels (List.replicate 2205 (0:ℚ)) := by
  have hall := resized_silence_zero 2205
  have hmin := listMin_of_all_zero hall
  have hmax := listMax_of_all_zero hall
  constructor
  · rw [spectroPixels_eq]
    refine List.mem_map.mpr
      ⟨nearestPixel (mel_spec_db (List.replicate 2205 (0:ℚ))) 0 0 150 120,
        row0_pixel_mem _ 0 (by norm_num), ?_⟩
    rw [hmin, hmax]
    simp [npDiv]
  · intro hmem
    rw [spectroPixels_eq] at hmem
    rcases List.mem_map.mp hmem with ⟨x, _, hxv⟩
    rw [hmin, hmax] at hxv
    simp [npDiv] at hxv

/-! Evaluation of the pipeline on a one-impulse signal of 513 samples, used to
exhibit a non-constant resized image. -/

theorem framePower_witness_zero : framePower (1 :: List.replicate 512 (0:ℚ)) 0 = 1 := by
  unfold framePower frameSamples
  have hlen : (1 :: List.replicate 512 (0:ℚ)).length ≤ 2048 := by simp
  rw [Nat.mul_zero, List.drop_zero, List.take_of_length_le hlen]
  simp [sum_replicate_zero]

theorem framePower_witness_one : framePower (1 :: List.replicate 512 (0:ℚ)) 1 = 0 := by
  unfold framePower frameSamples
  rw [Nat.mul_one, show (512:Nat) = 511 + 1 from rfl, List.drop_succ_cons,
    List.drop_replicate, List.take_replicate]
  simp [sum_replicate_zero]

theorem mel_spec_db_witness :
    mel_spec_db (1 :: List.replicate 512 (0:ℚ)) = List.replicate 128 [1, 0] := by
  unfold mel_spec_db numFrames
  have hlen : (1 :: List.replicate 512 (0:ℚ)).length = 513 := by simp
  rw [hlen, show (1 + 513 / 512 : Nat) = 2 from by norm_num,
    show List.range 2 = [0, 1] from rfl]
  simp only [List.map_cons, List.map_nil, framePower_witness_zero, framePower_witness_one]

theorem witness_pixel_one :
    nearestPixel (List.replicate 128 [(1:ℚ), 0]) 0 0 150 120 = 1 := by
  unfold nearestPixel
  norm_num

theorem witness_pixel_zero :
    nearestPixel (List.replicate 128 [(1:ℚ), 0]) 0 119 150 120 = 0 := by
  unfold nearestPixel
  rw [show (128:Nat) = 127 + 1 from rfl, List.replicate_succ]
  norm_num

theorem witness_one_mem :
    (1:ℚ) ∈ imageFlatten (mel_spec_resized (1 :: List.replicate 512 (0:ℚ))) := by
  have h := row0_pixel_mem (1 :: List.replicate 512 (0:ℚ)) 0 (by norm_num)
  rw [mel_spec_db_witness, witness_pixel_one] at h
  exact h

theorem witness_zero_mem :
    (0:ℚ) ∈ imageFlatten (mel_spec_resized (1 :: List.replicate 512 (0:ℚ))) := by
  have h := row0_pixel_mem (1 :: List.replicate 512 (0:ℚ)) 119 (by norm_num)
  rw [mel_spec_db_witness, witness_pixel_zero] at h
  exact h

theorem witness_nonconstant :
    listMin (imageFlatten (mel_spec_resized (1 :: List.replicate 512 (0:ℚ))))
      ≠ listMax (imageFlatten (mel_spec_resized (1 :: List.replicate 512 (0:ℚ)))) := by
  intro h
  have h0 := listMin_le_mem witness_zero_mem
  have h1 := mem_le_listMax witness_one_mem
  rw [h] at h0
  linarith

/-- C1 witness: the amended normalization theorem applied to the one-impulse
signal, whose resized image is non-constant, so that both extremes 0 and 1 are
attained in the output. -/
theorem generate_spectrogram_normalization_witness :
    some 0 ∈ spectroPixels (1 :: List.replicate 512 (0:ℚ)) ∧
    some 1 ∈ spectroPixels (1 :: List.replicate 512 (0:ℚ)) :=
  ⟨((generate_spectrogram_normalization
      (1 :: List.replicate 512 (0:ℚ))).1 witness_nonconstant).2.1,
    ((generate_spectrogram_normalization
      (1 :: List.replicate 512 (0:ℚ))).1 witness_nonconstant).2.2⟩

/-- C7: for every waveform of any duration from 0.1 s to 60 s at the 22050 Hz
sample rate (2205 to 1323000 samples), the spectrogram generated has shape
exactly 150 by 120 by 1, independent of the duration of the waveform. -/
theorem generate_spectrogram_shape (signal : List ℚ)
    (h1 : 2205 ≤ signal.length) (h2 : signal.length ≤ 1323000) :
    (generate_spectrogram signal).length = 150 ∧
    ∀ row ∈ generate_spectrogram signal,
      row.length = 120 ∧ ∀ px ∈ row, px.length = 1 := by
  constructor
  · unfold generate_spectrogram addChannel minmaxNormalize mel_spec_resized resizeTo
    simp
  · intro row hrow
    unfold generate_spectrogram addChannel at hrow
    rcases List.mem_map.mp hrow with ⟨r1, hr1, hrow1⟩
    unfold minmaxNormalize at hr1
    rcases List.mem_map.mp hr1 with ⟨r2, hr2, hr1eq⟩
    unfold mel_spec_resized resizeTo at hr2
    rcases List.mem_map.mp hr2 with ⟨i, _, hr2eq⟩
    constructor
    · rw [← hrow1, List.length_map, ← hr1eq, List.length_map, ← hr2eq,
        List.length_map, List.length_range]
    · intro px hpx
      rw [← hrow1] at hpx
      rcases List.mem_map.mp hpx with ⟨v, _, hv⟩
      rw [← hv]
      rfl

/-- C7 witness: the shape theorem applied to the 0.1-second silent waveform. -/
theorem generate_spectrogram_shape_witness :
    2205 ≤ (List.replicate 2205 (0:ℚ)).length ∧
    (List.replicate 2205 (0:ℚ)).length ≤ 1323000 ∧
    ((generate_spectrogram (List.replicate 2205 (0:ℚ))).length = 150 ∧
      ∀ row ∈ generate_spectrogram (List.replicate 2205 (0:ℚ)),
        row.length = 120 ∧ ∀ px ∈ row, px.length = 1) :=
  ⟨by simp, by simp,
    generate_spectrogram_shape (List.replicate 2205 (0:ℚ)) (by simp) (by simp)⟩

/-! Helper lemmas for format detection and routing. -/

theorem is_webm_file_iff (content : List Nat) :
    is_webm_file content = true ↔ content.take 4 = webmMagic := by
  unfold is_webm_file
  rw [ List.isPrefixOf_iff_prefix, List.prefix_take_iff]
  constructor
  · rintro ⟨hp, _⟩
    have h := List.prefix_iff_eq_take.mp hp
    rw [show webmMagic.length = 4 from rfl] at h
    exact h.symm
  · intro ht
    refine ⟨List.prefix_iff_eq_take.mpr ?_, by norm_num [webmMagic]⟩
    rw [show webmMagic.length = 4 from rfl]
    exact ht.symm

theorem load_audio_route_eq (filename : String) (content : List Nat)
    (ffmpeg : FfmpegOutcome) (decodeOk removeOk : Bool) (wavPath : String)
    (fs : List String) :
    (load_audio_model filename content ffmpeg decodeOk removeOk wavPath fs).route
      = if is_webm_file content then AudioAction.transcode else AudioAction.directDecode := by
  unfold load_audio_model convert_webm_to_wav
  by_cases h : is_webm_file content <;>
    cases ffmpeg <;> cases decodeOk <;> cases removeOk <;> simp [h]

/-- C8: load_audio routes a file to WebM transcoding exactly when its content
starts with the EBML magic signature 0x1A45DFA3, for every filename (and hence
for every extension), every transcoder outcome and every decode outcome; a
buffer without the signature is decoded directly. -/
theorem load_audio_routes_on_magic (filename : String) (content : List Nat)
    (ffmpeg : FfmpegOutcome) (decodeOk removeOk : Bool) (wavPath : String)
    (fs : List String) :
    (load_audio_model filename content ffmpeg decodeOk removeOk wavPath fs).route
        = AudioAction.transcode
      ↔ content.take 4 = webmMagic := by
  rw [load_audio_route_eq]
  by_cases h : is_webm_file content
  · rw [if_pos h]
    exact Iff.intro (fun _ => (is_webm_file_iff content).mp h) (fun _ => rfl)
  · rw [if_neg h]
    constructor
    · intro hc
      cases hc
    · intro ht
      exact absurd ((is_webm_file_iff content).mpr ht) h

/-- C8 witness: a buffer starting with the magic bytes is transcoded even when
named clip.wav, and a RIFF buffer named clip.wav is decoded directly. -/
theorem load_audio_routes_on_magic_witness :
    (load_audio_model "clip.wav" [0x1A, 0x45, 0xDF, 0xA3, 0, 0] FfmpegOutcome.ok
        true true "t.wav" []).route = AudioAction.transcode ∧
    (load_audio_model "clip.wav" [82, 73, 70, 70] FfmpegOutcome.ok
        true true "t.wav" []).route = AudioAction.directDecode := by
  constructor
  · exact (load_audio_routes_on_magic "clip.wav" [0x1A, 0x45, 0xDF, 0xA3, 0, 0]
      FfmpegOutcome.ok true true "t.wav" []).mpr (by decide)
  · rfl

/-- C4 counterexample: a WebM buffer is transcoded successfully, then the
librosa decode of the converted file fails; load_audio re-raises from its
except block without deleting the converted WAV, so the temporary file created
during the call remains on disk, refuting the claim that no temp file remains
on any exit path. -/
theorem load_audio_leaks_temp_on_decode_failure :
    (load_audio_model "clip.webm" [0x1A, 0x45, 0xDF, 0xA3] FfmpegOutcome.ok
        false true "tmp0.wav" []).tempFiles = ["tmp0.wav"] ∧
    (load_audio_model "clip.webm" [0x1A, 0x45, 0xDF, 0xA3] FfmpegOutcome.ok
        false true "tmp0.wav" []).tempFiles ≠ [] := by
  constructor
  · rfl
  · intro h
    cases h

/-- C4 (amended): for a WebM upload, the converted temporary WAV is deleted
only on the fully successful path (transcode succeeded, decode succeeded,
deletion permitted); when the transcoder fails, the decode fails, or deletion
hits a PermissionError, the temporary WAV remains on disk after the call. -/
theorem load_audio_cleanup_paths (filename : String) (content : List Nat)
    (ffmpeg : FfmpegOutcome) (decodeOk removeOk : Bool) (wavPath : String)
    (fs : List String) (hweb : is_webm_file content = true)
    (hfresh : wavPath ∉ fs) :
    (ffmpeg = FfmpegOutcome.ok ∧ decodeOk = true ∧ removeOk = true →
      (load_audio_model filename content ffmpeg decodeOk removeOk wavPath fs).tempFiles
        = fs) ∧
    (ffmpeg ≠ FfmpegOutcome.ok ∨ decodeOk = false ∨ removeOk = false →
      wavPath ∈ (load_audio_model filename content ffmpeg decodeOk removeOk
        wavPath fs).tempFiles) := by
  constructor
  · rintro ⟨hff, hdec, hrem⟩
    subst hff
    subst hdec
    subst hrem
    unfold load_audio_model convert_webm_to_wav
    rw [if_pos hweb]
    simp only [if_pos]
    rw [List.erase_append_right [wavPath] hfresh, List.erase_cons_head,
      List.append_nil]
  · intro h
    have hmem : wavPath ∈ fs ++ [wavPath] :=
      List.mem_append.mpr (Or.inr (List.mem_cons_self _ _))
    unfold load_audio_model convert_webm_to_wav
    rw [if_pos hweb]
    rcases h with hff | hdec | hrem
    · cases ffmpeg with
      | ok => exact absurd rfl hff
      | exitNonzero => exact hmem
      | timeout => exact hmem
      | binMissing => exact hmem
    · subst hdec
      cases ffmpeg <;> simp [hmem]
    · subst hrem
      cases ffmpeg <;> cases decodeOk <;> simp [hmem]

/-- C4 witness: the amended cleanup theorem applied to a concrete WebM buffer
on the fully successful path, where the temporary WAV is indeed removed. -/
theorem load_audio_cleanup_paths_witness :
    is_webm_file [0x1A, 0x45, 0xDF, 0xA3] = true ∧
    "t.wav" ∉ ([] : List String) ∧
    (FfmpegOutcome.ok = FfmpegOutcome.ok ∧ true = true ∧ true = true →
      (load_audio_model "a.webm" [0x1A, 0x45, 0xDF, 0xA3] FfmpegOutcome.ok
        true true "t.wav" []).tempFiles = []) :=
  ⟨by decide, by simp,
    (load_audio_cleanup_paths "a.webm" [0x1A, 0x45, 0xDF, 0xA3] FfmpegOutcome.ok
      true true "t.wav" [] (by decide) (by simp)).1⟩

/-- C2 counterexample: with both model artifacts absent, a prediction request
through process_audio_for_prediction does fail with the model-not-loaded error,
but the feature-extraction stage has already run: generate_spectrogram is
invoked on line 149 before get_embedding performs the availability check on
line 13, refuting the claim that generate_spectrogram is never invoked. -/
theorem process_audio_spectrogram_runs_despite_missing_models :
    Stage.featureExtraction
      ∈ (process_audio_for_prediction { extractor := none, svm_model := none } [0]).1 ∧
    (process_audio_for_prediction { extractor := none, svm_model := none } [0]).2
      = Except.error PyError.cnnModelNotLoaded := by
  constructor
  · show Stage.featureExtraction ∈ [Stage.featureExtraction]
    exact List.mem_cons_self _ _
  · rfl

/-- C2 (amended): when the embedding extractor or the classifier artifact is
absent, every prediction request through the orchestrator fails with the
model-not-loaded error and classification never runs, but feature extraction is
attempted first: generate_spectrogram runs before the availability check. -/
theorem process_audio_missing_models_late_failure (m : Models) (signal : List ℚ)
    (h : m.extractor = none ∨ m.svm_model = none) :
    (∃ e, (process_audio_for_prediction m signal).2 = Except.error e) ∧
    Stage.featureExtraction ∈ (process_audio_for_prediction m signal).1 ∧
    Stage.classification ∉ (process_audio_for_prediction m signal).1 := by
  obtain ⟨ext, svm⟩ := m
  rcases h with h | h
  · rw [show ({ extractor := ext, svm_model := svm } : Models).extractor = ext
      from rfl] at h
    subst h
    refine ⟨⟨PyError.cnnModelNotLoaded, rfl⟩, ?_, ?_⟩
    · exact List.mem_cons_self _ _
    · intro hc
      simp [process_audio_for_prediction, get_embedding] at hc
  · rw [show ({ extractor := ext, svm_model := svm } : Models).svm_model = svm
      from rfl] at h
    subst h
    cases ext with
    | none =>
        refine ⟨⟨PyError.cnnModelNotLoaded, rfl⟩, List.mem_cons_self _ _, ?_⟩
        intro hc
        simp [process_audio_for_prediction, get_embedding] at hc
    | some cm =>
        refine ⟨⟨PyError.svmModelNotLoaded, rfl⟩, List.mem_cons_self _ _, ?_⟩
        intro hc
        simp [process_audio_for_prediction, get_embedding, predict_emotion] at hc

/-- C2 witness: the amended theorem applied with both artifacts absent on a
one-sample signal. -/
theorem process_audio_missing_models_late_failure_witness :
    (({ extractor := none, svm_model := none } : Models).extractor = none ∨
      ({ extractor := none, svm_model := none } : Models).svm_model = none) ∧
    ((∃ e, (process_audio_for_prediction
        { extractor := none, svm_model := none } [0]).2 = Except.error e) ∧
      Stage.featureExtraction
        ∈ (process_audio_for_prediction { extractor := none, svm_model := none } [0]).1 ∧
      Stage.classification
        ∉ (process_audio_for_prediction { extractor := none, svm_model := none } [0]).1) :=
  ⟨Or.inl rfl,
    process_audio_missing_models_late_failure
      { extractor := none, svm_model := none } [0] (Or.inl rfl)⟩

/-- C5 counterexample: with TensorFlow available and the artifact file present
but failing to deserialize with the compatibility error, initialization does
not fail: it silently rebuilds a fresh quick_train architecture and installs it,
and a subsequent get_embedding call on the rebuilt model succeeds instead of
failing with the model-unavailable error. -/
theorem init_extractor_rebuilds_on_compat_error :
    init_extractor true true LoadOutcome.compatError (fun _ => []) (fun _ => [1])
      = Except.ok (some { rebuilt := true, eval := fun _ => [1] }) ∧
    init_extractor true true LoadOutcome.compatError (fun _ => []) (fun _ => [1])
      ≠ Except.ok none ∧
    get_embedding (some { rebuilt := true, eval := fun _ => [1] })
        (generate_spectrogram [0])
      = Except.ok [1] := by
  refine ⟨rfl, ?_, rfl⟩
  intro h
  have h2 := Except.ok.inj h
  cases h2

/-- C5 (amended): a ValueError or TypeError during deserialization of the
present artifact is caught and replaced by a silently rebuilt untrained
architecture, so initialization reports a usable model rather than failing; a
clean load yields the deserialized model; the extractor is None exactly when the
file is missing or the import failed, and only then does a later get_embedding
call fail immediately with the model-not-loaded error; an exception of any
other kind escapes the handler and aborts the import uncaught. -/
theorem init_extractor_availability (load : LoadOutcome)
    (ldEval rbEval : List Spectro → List ℚ) (s : Spectro) :
    init_extractor true true LoadOutcome.compatError ldEval rbEval
      = Except.ok (some { rebuilt := true, eval := rbEval }) ∧
    init_extractor true true LoadOutcome.ok ldEval rbEval
      = Except.ok (some { rebuilt := false, eval := ldEval }) ∧
    init_extractor false true load ldEval rbEval = Except.ok none ∧
    init_extractor true false load ldEval rbEval = Except.ok none ∧
    get_embedding none s = Except.error PyError.cnnModelNotLoaded ∧
    init_extractor true true LoadOutcome.otherError ldEval rbEval
      = Except.error PyError.uncaughtLoadError :=
  ⟨rfl, rfl, rfl, rfl, rfl, rfl⟩

/-! Helper lemmas about the emotion-probability mapping. -/

theorem emotion_probabilities_map_fst (probs : List ℚ) :
    (emotion_probabilities probs).map Prod.fst = EMOTION_LABELS := rfl

theorem emotion_probabilities_length (probs : List ℚ) :
    (emotion_probabilities probs).length = 6 := rfl

theorem emotion_probabilities_from_getD (probs : List ℚ) (labels : List String)
    (k i : Nat) (d : String × ℚ) (hi : i < labels.length) :
    (emotion_probabilities_from probs k labels).getD i d
      = (labels.getD i "",
          if k + i < probs.length then probs.getD (k + i) 0 else 0) := by
  induction labels generalizing k i with
  | nil => exact absurd hi (by simp)
  | cons e es ih =>
      cases i with
      | zero => simp [emotion_probabilities_from]
      | succ n =>
          have hn : n < es.length := by
            simpa using Nat.lt_of_succ_lt_succ hi
          have harith : k + (n + 1) = (k + 1) + n := by omega
          rw [show (emotion_probabilities_from probs k (e :: es))
              = (e, if k < probs.length then probs.getD k 0 else 0)
                :: emotion_probabilities_from probs (k + 1) es from rfl,
            List.getD_cons_succ, List.getD_cons_succ, harith, ih (k + 1) n hn]

/-- C9: for every loaded classifier and every embedding, predict_emotion
returns, without raising, a distribution whose keys are exactly the six labels
in the fixed order; positions covered by the classifier probability row carry
its values, and each label beyond the length of the row is assigned probability 0. -/
theorem predict_emotion_all_labels (mdl : SvmModel) (embedding : List ℚ) :
    ∃ dist, predict_emotion (some mdl) embedding = Except.ok dist ∧
      dist.map Prod.fst = EMOTION_LABELS ∧
      dist.length = 6 ∧
      (∀ i, i < 6 → i < (mdl.predict_proba embedding).length →
        dist.getD i ("", 1)
          = (EMOTION_LABELS.getD i "", (mdl.predict_proba embedding).getD i 0)) ∧
      (∀ i, i < 6 → (mdl.predict_proba embedding).length ≤ i →
        dist.getD i ("", 1) = (EMOTION_LABELS.getD i "", 0)) := by
  refine ⟨emotion_probabilities (mdl.predict_proba embedding), rfl,
    emotion_probabilities_map_fst _, rfl, ?_, ?_⟩
  · intro i h6 hlen
    rw [show emotion_probabilities (mdl.predict_proba embedding)
        = emotion_probabilities_from (mdl.predict_proba embedding) 0 EMOTION_LABELS
        from rfl,
      emotion_probabilities_from_getD _ _ 0 i _ (by simpa [EMOTION_LABELS] using h6),
      Nat.zero_add, if_pos hlen]
  · intro i h6 hlen
    rw [show emotion_probabilities (mdl.predict_proba embedding)
        = emotion_probabilities_from (mdl.predict_proba embedding) 0 EMOTION_LABELS
        from rfl,
      emotion_probabilities_from_getD _ _ 0 i _ (by simpa [EMOTION_LABELS] using h6),
      Nat.zero_add, if_neg (Nat.not_lt.mpr hlen)]

/-- C9 witness: the theorem applied to a classifier emitting only two
probabilities, whose remaining four labels default to 0. -/
theorem predict_emotion_all_labels_witness :
    ∃ dist, predict_emotion
        (some { predict_proba := fun _ => [(1:ℚ)/2, 1/4] }) []
      = Except.ok dist ∧
      dist.map Prod.fst = EMOTION_LABELS ∧
      dist.length = 6 ∧
      (∀ i, i < 6 →
          i < (SvmModel.predict_proba { predict_proba := fun _ => [(1:ℚ)/2, 1/4] } []).length →
        dist.getD i ("", 1)
          = (EMOTION_LABELS.getD i "",
            (SvmModel.predict_proba { predict_proba := fun _ => [(1:ℚ)/2, 1/4] } []).getD i 0)) ∧
      (∀ i, i < 6 →
          (SvmModel.predict_proba { predict_proba := fun _ => [(1:ℚ)/2, 1/4] } []).length ≤ i →
        dist.getD i ("", 1) = (EMOTION_LABELS.getD i "", 0)) :=
  predict_emotion_all_labels { predict_proba := fun _ => [(1:ℚ)/2, 1/4] } []

/-- The fold underlying the Python max returns the first element attaining the
maximum key: the input splits around the result into a prefix of strictly
smaller keys and a suffix of keys bounded by the key of the result. -/
theorem foldl_maxStep_spec (x : String × ℚ) (xs : List (String × ℚ)) :
    ∃ l₁ l₂, x :: xs = l₁ ++ xs.foldl maxStep x :: l₂ ∧
      (∀ y ∈ l₁, y.2 < (xs.foldl maxStep x).2) ∧
      ∀ y ∈ l₂, y.2 ≤ (xs.foldl maxStep x).2 := by
  induction xs generalizing x with
  | nil => exact ⟨[], [], rfl, by simp, by simp⟩
  | cons y ys ih =>
      rw [List.foldl_cons]
      by_cases hxy : x.2 < y.2
      · have hstep : maxStep x y = y := by simp [maxStep, hxy]
        rw [hstep]
        obtain ⟨l₁, l₂, heq, h₁, h₂⟩ := ih y
        cases l₁ with
        | nil =>
            rw [List.nil_append] at heq
            have hy : y = ys.foldl maxStep y := (List.cons.injEq _ _ _ _).mp heq |>.1
            have hys : ys = l₂ := (List.cons.injEq _ _ _ _).mp heq |>.2
            refine ⟨[x], l₂, ?_, ?_, h₂⟩
            · rw [List.cons_append, List.nil_append, ← heq]
            · intro z hz
              rcases List.mem_singleton.mp hz with rfl
              rw [← hy]
              exact hxy
        | cons a l₁t =>
            rw [List.cons_append] at heq
            have ha : y = a := (List.cons.injEq _ _ _ _).mp heq |>.1
            have hys : ys = l₁t ++ ys.foldl maxStep y :: l₂ :=
              (List.cons.injEq _ _ _ _).mp heq |>.2
            refine ⟨x :: a :: l₁t, l₂, ?_, ?_, h₂⟩
            · rw [List.cons_append, List.cons_append, ← hys, ha]
            · intro z hz
              rcases List.mem_cons.mp hz with rfl | hz2
              · have haa : a.2 < (ys.foldl maxStep y).2 :=
                  h₁ a (List.mem_cons_self _ _)
                rw [← ha] at haa
                exact lt_trans hxy haa
              · exact h₁ z hz2
      · have hstep : maxStep x y = x := by simp [maxStep, hxy]
        rw [hstep]
        have hyx : y.2 ≤ x.2 := le_of_not_lt hxy
        obtain ⟨l₁, l₂, heq, h₁, h₂⟩ := ih x
        cases l₁ with
        | nil =>
            rw [List.nil_append] at heq
            have hx : x = ys.foldl maxStep x := (List.cons.injEq _ _ _ _).mp heq |>.1
            have hys : ys = l₂ := (List.cons.injEq _ _ _ _).mp heq |>.2
            refine ⟨[], y :: ys, ?_, by simp, ?_⟩
            · rw [List.nil_append, ← hx]
            · intro z hz
              rcases List.mem_cons.mp hz with rfl | hz2
              · rw [← hx]
                exact hyx
              · rw [hys] at hz2
                exact h₂ z hz2
        | cons a l₁t =>
            rw [List.cons_append] at heq
            have ha : x = a := (List.cons.injEq _ _ _ _).mp heq |>.1
            have hys : ys = l₁t ++ ys.foldl maxStep x :: l₂ :=
              (List.cons.injEq _ _ _ _).mp heq |>.2
            have hxlt : x.2 < (ys.foldl maxStep x).2 := by
              rw [show x.2 = a.2 from congrArg Prod.snd ha]
              exact h₁ a (List.mem_cons_self _ _)
            refine ⟨x :: y :: l₁t, l₂, ?_, ?_, h₂⟩
            · rw [List.cons_append, List.cons_append, ← hys]
            · intro z hz
              rcases List.mem_cons.mp hz with rfl | hz2
              · exact hxlt
              · rcases List.mem_cons.mp hz2 with rfl | hz3
                · exact lt_of_le_of_lt hyx hxlt
                · exact h₁ z (List.mem_cons_of_mem a hz3)

/-- C6: for every classifier probability row, the primary emotion computed by
the Python max of the orchestrator over the EmotionDistribution is a label whose
probability bounds the whole distribution, all labels listed before it in the
fixed order [angry, disgust, fear, happy, neutral, sad] have strictly smaller
probability, and all labels after it have probability at most the maximum —
so an exact tie is always resolved to the label first in the fixed order, and
the selection is a pure function of the distribution, deterministic across
runs. -/
theorem primary_emotion_first_argmax (probs : List ℚ) :
    ∃ e v l₁ l₂,
      pythonMax (emotion_probabilities probs) = some (e, v) ∧
      emotion_probabilities probs = l₁ ++ (e, v) :: l₂ ∧
      (∀ p ∈ l₁, p.2 < v) ∧
      (∀ p ∈ l₂, p.2 ≤ v) ∧
      (∀ p ∈ emotion_probabilities probs, p.2 ≤ v) ∧
      (emotion_probabilities probs).map Prod.fst = EMOTION_LABELS := by
  obtain ⟨l₁, l₂, heq, h₁, h₂⟩ :=
    foldl_maxStep_spec
      ("angry", if 0 < probs.length then probs.getD 0 0 else 0)
      (emotion_probabilities_from probs 1 ["disgust", "fear", "happy", "neutral", "sad"])
  refine ⟨_, _, l₁, l₂, rfl, heq, h₁, h₂, ?_, emotion_probabilities_map_fst probs⟩
  intro p hp
  rw [show emotion_probabilities probs
      = ("angry", if 0 < probs.length then probs.getD 0 0 else 0)
        :: emotion_probabilities_from probs 1 ["disgust", "fear", "happy", "neutral", "sad"]
      from rfl, heq] at hp
  rcases List.mem_append.mp hp with hmem | hmem
  · exact le_of_lt (h₁ p hmem)
  · rcases List.mem_cons.mp hmem with rfl | hmem2
    · exact le_refl _
    · exact h₂ p hmem2

/-- C6 witness: the theorem applied to a distribution with an exact tie between
the first two labels. -/
theorem primary_emotion_first_argmax_witness :
    ∃ e v l₁ l₂,
      pythonMax (emotion_probabilities [(1:ℚ)/2, 1/2]) = some (e, v) ∧
      emotion_probabilities [(1:ℚ)/2, 1/2] = l₁ ++ (e, v) :: l₂ ∧
      (∀ p ∈ l₁, p.2 < v) ∧
      (∀ p ∈ l₂, p.2 ≤ v) ∧
      (∀ p ∈ emotion_probabilities [(1:ℚ)/2, 1/2], p.2 ≤ v) ∧
      (emotion_probabilities [(1:ℚ)/2, 1/2]).map Prod.fst = EMOTION_LABELS :=
  primary_emotion_first_argmax [(1:ℚ)/2, 1/2]

/-- C3 counterexample: with 5 seconds spent in feature extraction, 1 in
embedding and 2 in classification, the processing_time computed by
process_audio_for_prediction_with_storage is 8, not the 3 that a measurement
covering embedding and classification only would give: the timer on line 163
starts before generate_spectrogram runs on line 166. -/
theorem measured_processing_time_not_two_stage :
    measured_processing_time
        { featureExtraction := 5, embedding := 1, classification := 2 } 0
      ≠ 1 + 2 := by
  norm_num [measured_processing_time]

/-- C3 (amended): the processing_time computed by the storage orchestrator
measures wall-clock duration across feature extraction, embedding and
classification — the timer starts before the spectrogram is generated —
while ingestion, which happens in the caller before this function runs, is
excluded; this holds for every combination of stage durations and every clock
origin. -/
theorem measured_processing_time_three_stage (d : StageDurations) (clock0 : ℚ) :
    measured_processing_time d clock0
      = d.featureExtraction + d.embedding + d.classification := by
  unfold measured_processing_time
  ring

/-- C10: for every collection state and every argument list,
save_prediction_to_mongo raises AttributeError while building the document —
datetime.now(datetime.timezone.utc) looks up timezone on the datetime class,
which has no such attribute — before any insertion happens; consequently
process_audio_for_prediction_with_storage leaves the predictions collection
unchanged on every input, never persisting a prediction record. -/
theorem save_prediction_never_persists (db : List PredictionDoc)
    (uid fn emo : String) (conf : ℚ) (m : Models) (d : StageDurations)
    (signal : List ℚ) (clock0 : ℚ) :
    save_prediction_to_mongo db uid fn emo conf
      = Except.error PyError.attributeError ∧
    (process_audio_for_prediction_with_storage m d signal uid fn db clock0).1
      = db := by
  have hsave : ∀ (db2 : List PredictionDoc) (u f e : String) (c : ℚ),
      save_prediction_to_mongo db2 u f e c
        = Except.error PyError.attributeError := by
    intro db2 u f e c
    unfold save_prediction_to_mongo eval_created_at getattr_datetime_class
    rw [if_neg (by decide)]
  refine ⟨hsave db uid fn emo conf, ?_⟩
  unfold process_audio_for_prediction_with_storage
  rcases hge : get_embedding m.extractor (generate_spectrogram signal) with e | emb
  · simp only [hge]
  · rcases hpe : predict_emotion m.svm_model emb with e2 | dist
    · simp only [hge, hpe]
    · rcases hpm : pythonMax dist with _ | pe
      · simp only [hge, hpe, hpm]
      · simp only [hge, hpe, hpm, hsave db uid fn pe.1 pe.2]

end EmotionBackend
